import Mathlib

/-!
Verification development for the wealth-tracker backend's projection and
analytics engine (`backend/server.py`).

Embedding conventions:
* Python `float` arithmetic is modelled exactly over `ℚ`; the spec's
  "within rounding tolerance" statements become exact rational equalities.
* Python `int` is modelled by `ℤ`; `datetime` values are modelled at day
  granularity as `ℤ` (the code only ever uses `(d1 - d2).days`).
* Python dicts built by repeated key assignment are modelled as association
  lists with overwrite-on-existing-key semantics (`dictInsert`), preserving
  insertion order, exactly as CPython dicts behave.
* `np.random.normal(mean, std)` is modelled as `mean + std * z i` for an
  arbitrary stream `z : ℕ → ℚ` of standard draws, consumed in the same
  order as the code consumes the seeded generator.
* Code with no failure path is embedded as a total function; code that can
  raise (`ZeroDivisionError` on `x / 0`, `IndexError` on `list[-1]` of an
  empty list) is embedded in `Except String`.
-/

/-- The `AssetType` enum of the server (fixed closed set of asset classes). -/
inductive AssetType
  | stocks
  | mutual_funds
  | cryptocurrency
  | real_estate
  | fixed_deposits
  | gold
  | others
deriving DecidableEq, Inhabited, Repr

/-- The fields of the server's `Asset` model that the analytics functions read.
`id`, `user_id`, `metadata`, `sip_start_date` and the timestamps are never used
by the analytics code and are omitted.  `purchase_date` is in days. -/
structure Asset where
  name : String
  asset_type : AssetType
  purchase_value : ℚ
  current_value : ℚ
  purchase_date : ℤ
  monthly_sip_amount : ℚ := 0
  step_up_percentage : ℚ := 0
  is_sip_active : Bool := false
deriving Inhabited, Repr

/-- The server's `DashboardSummary` model (the `recent_assets` display list is
never read by the analytics functions and is omitted).  `asset_allocation` is
the dict mapping asset type to the summed current value of that type. -/
structure DashboardSummary where
  total_net_worth : ℚ
  total_investment : ℚ
  total_gain_loss : ℚ
  gain_loss_percentage : ℚ
  asset_allocation : List (AssetType × ℚ)
deriving Inhabited, Repr

/-- The server's `ProjectionResult` model: one record per projected year. -/
structure ProjectionResult where
  year : ℤ
  total_value : ℚ
  investment_added : ℚ
  growth : ℚ
  sip_contribution : ℚ
  lumpsum_contribution : ℚ
deriving Inhabited, Repr

/-- The server's `ProjectionInput` model (`asset_class` is a display label the
computation never reads; it is omitted). -/
structure ProjectionInput where
  current_value : ℚ
  annual_growth_rate : ℚ
  annual_investment : ℚ
  years : ℤ
  monthly_sip_amount : ℚ := 0
  step_up_percentage : ℚ := 0
deriving Inhabited, Repr

/-- One month of the inner loop of `calculate_compound_growth`: add the current
monthly SIP (only when it is positive, as the code guards with
`if current_monthly_sip > 0`), account it into the year's SIP total, then apply
one month of growth at `annual_rate / 100 / 12`.  The state is
`(current_value, year_sip_contribution)`. -/
def sipMonth (annual_rate monthly_sip : ℚ) (st : ℚ × ℚ) : ℚ × ℚ :=
  let v := if monthly_sip > 0 then st.1 + monthly_sip else st.1
  let c := if monthly_sip > 0 then st.2 + monthly_sip else st.2
  (v * (1 + annual_rate / 100 / 12), c)

/-- The year loop of `calculate_compound_growth`, recursing on the number of
remaining years.  Arguments mirror the loop state: the 1-based year counter,
the running `current_value` carried between years, and the (possibly
stepped-up) `current_monthly_sip`. -/
def cgAux (annual_rate annual_investment step_up_percentage : ℚ) :
    ℕ → ℤ → ℚ → ℚ → List ProjectionResult
  | 0, _, _, _ => []
  | n + 1, year, current_value, sip =>
    let st := (sipMonth annual_rate sip)^[12] (current_value, 0)
    let total_value := st.1 + annual_investment
    let year_sip_contribution := st.2
    let growth := total_value - current_value - year_sip_contribution - annual_investment
    { year := year
      total_value := total_value
      investment_added := annual_investment
      growth := growth
      sip_contribution := year_sip_contribution
      lumpsum_contribution := annual_investment } ::
      cgAux annual_rate annual_investment step_up_percentage n (year + 1) total_value
        (if step_up_percentage > 0 then sip * (1 + step_up_percentage / 100) else sip)

/-- `calculate_compound_growth` of the server: compound growth with monthly SIP
contributions (compounded monthly, contribution added before the month's
growth), an annual lump sum added at year end, and an annual SIP step-up
applied after each emitted year.  The Python loop `for year in range(1, years + 1)`
is empty for `years ≤ 0`, hence the `Int.toNat`. -/
def calculate_compound_growth (principal annual_rate annual_investment : ℚ) (years : ℤ)
    (monthly_sip : ℚ := 0) (step_up_percentage : ℚ := 0) : List ProjectionResult :=
  cgAux annual_rate annual_investment step_up_percentage years.toNat 1 principal monthly_sip

lemma cgAux_length (r ai su : ℚ) :
    ∀ (n : ℕ) (year : ℤ) (cv sip : ℚ), (cgAux r ai su n year cv sip).length = n := by
  intro n
  induction n with
  | zero => intro year cv sip; rfl
  | succ k ih => intro year cv sip; simp [cgAux, ih]

lemma calculate_compound_growth_length (p r ai : ℚ) (years : ℤ) (ms su : ℚ) :
    (calculate_compound_growth p r ai years ms su).length = years.toNat := by
  unfold calculate_compound_growth
  exact cgAux_length r ai su years.toNat 1 p ms

/-- Each record of `cgAux` satisfies the chain invariant: its `total_value` is
the previous record's `total_value` (or the incoming `current_value` for the
first record) plus that year's SIP contribution, lump sum and growth. -/
lemma cgAux_invariant (r ai su : ℚ) :
    ∀ (n : ℕ) (year : ℤ) (cv sip : ℚ) (i : ℕ), i < n →
      ((cgAux r ai su n year cv sip).getD i default).total_value =
        (if i = 0 then cv else ((cgAux r ai su n year cv sip).getD (i - 1) default).total_value)
          + ((cgAux r ai su n year cv sip).getD i default).sip_contribution
          + ((cgAux r ai su n year cv sip).getD i default).lumpsum_contribution
          + ((cgAux r ai su n year cv sip).getD i default).growth := by
  intro n
  induction n with
  | zero => intro year cv sip i hi; omega
  | succ k ih =>
    intro year cv sip i hi
    match i with
    | 0 =>
      simp only [cgAux, List.getD_cons_zero, eq_self_iff_true, if_true]
      ring
    | 1 =>
      have hk : 0 < k := by omega
      have := ih (year + 1)
        (((sipMonth r sip)^[12] (cv, 0)).1 + ai)
        (if su > 0 then sip * (1 + su / 100) else sip) 0 hk
      simp only [cgAux, List.getD_cons_succ, List.getD_cons_zero] at this ⊢
      simpa using this
    | (j + 2) =>
      have hk : j + 1 < k := by omega
      have := ih (year + 1)
        (((sipMonth r sip)^[12] (cv, 0)).1 + ai)
        (if su > 0 then sip * (1 + su / 100) else sip) (j + 1) hk
      simp only [cgAux, List.getD_cons_succ] at this ⊢
      simpa using this

/-- C1: for every valid projector input (principal ≥ 0, years a positive
integer, monthly_sip ≥ 0, step_up_percentage ≥ 0, annual_investment ≥ 0, any
annual_rate) and every year `y` in `1..years` of the sequence returned by
`calculate_compound_growth`, the year's `total_value` equals the previous
year's `total_value` (the `principal` for year 1) plus that year's
`sip_contribution`, `lumpsum_contribution` and `growth`.  Year `y` is the
record at 0-based index `y - 1`. -/
theorem projector_total_value_invariant
    (principal annual_rate annual_investment : ℚ) (years : ℤ)
    (monthly_sip step_up_percentage : ℚ)
    (hp : 0 ≤ principal) (hy : 1 ≤ years) (hms : 0 ≤ monthly_sip)
    (hsu : 0 ≤ step_up_percentage) (hai : 0 ≤ annual_investment)
    (y : ℕ) (hy1 : 1 ≤ y) (hy2 : (y : ℤ) ≤ years) :
    ((calculate_compound_growth principal annual_rate annual_investment years
        monthly_sip step_up_percentage).getD (y - 1) default).total_value =
      (if y = 1 then principal
       else ((calculate_compound_growth principal annual_rate annual_investment years
          monthly_sip step_up_percentage).getD (y - 2) default).total_value)
        + ((calculate_compound_growth principal annual_rate annual_investment years
            monthly_sip step_up_percentage).getD (y - 1) default).sip_contribution
        + ((calculate_compound_growth principal annual_rate annual_investment years
            monthly_sip step_up_percentage).getD (y - 1) default).lumpsum_contribution
        + ((calculate_compound_growth principal annual_rate annual_investment years
            monthly_sip step_up_percentage).getD (y - 1) default).growth := by
  have hi : y - 1 < years.toNat := by omega
  have h := cgAux_invariant annual_rate annual_investment step_up_percentage
    years.toNat 1 principal monthly_sip (y - 1) hi
  unfold calculate_compound_growth
  have hif : y - 1 = 0 ↔ y = 1 := by omega
  have hsub : y - 1 - 1 = y - 2 := by omega
  simp only [hif, hsub] at h
  exact h

/-- Witness for C1 at principal 1000, rate 12 %, lump sum 500, 5 years,
SIP 100 stepped up 10 %, checked at year 3. -/
theorem projector_total_value_invariant_witness :
    ((0 : ℚ) ≤ 1000 ∧ (1 : ℤ) ≤ 5 ∧ (0 : ℚ) ≤ 100 ∧ (0 : ℚ) ≤ 10 ∧ (0 : ℚ) ≤ 500 ∧
      1 ≤ 3 ∧ (3 : ℤ) ≤ 5) ∧
    ((calculate_compound_growth 1000 12 500 5 100 10).getD 2 default).total_value =
      ((calculate_compound_growth 1000 12 500 5 100 10).getD 1 default).total_value
        + ((calculate_compound_growth 1000 12 500 5 100 10).getD 2 default).sip_contribution
        + ((calculate_compound_growth 1000 12 500 5 100 10).getD 2 default).lumpsum_contribution
        + ((calculate_compound_growth 1000 12 500 5 100 10).getD 2 default).growth := by
  refine ⟨⟨by norm_num, by norm_num, by norm_num, by norm_num, by norm_num, by norm_num,
    by norm_num⟩, ?_⟩
  have h := projector_total_value_invariant 1000 12 500 5 100 10
    (by norm_num) (by norm_num) (by norm_num) (by norm_num) (by norm_num)
    3 (by norm_num) (by norm_num)
  simpa using h

lemma sipMonth_iterate_snd (r s : ℚ) (hs : 0 < s) :
    ∀ (k : ℕ) (cv c : ℚ), ((sipMonth r s)^[k] (cv, c)).2 = c + k * s := by
  intro k
  induction k with
  | zero => intro cv c; simp
  | succ n ih =>
    intro cv c
    rw [Function.iterate_succ_apply]
    show ((sipMonth r s)^[n] (sipMonth r s (cv, c))).2 = c + (n + 1 : ℕ) * s
    simp only [sipMonth, if_pos hs]
    rw [ih]
    push_cast
    ring

/-- In `cgAux`, when the current monthly SIP and the step-up percentage are
both positive, the SIP contribution emitted for the record at index `i` is
`12 * sip * (1 + su / 100) ^ i`. -/
lemma cgAux_sip_law (r ai su : ℚ) (hsu : 0 < su) :
    ∀ (n : ℕ) (year : ℤ) (cv sip : ℚ), 0 < sip → ∀ i, i < n →
      ((cgAux r ai su n year cv sip).getD i default).sip_contribution
        = 12 * sip * (1 + su / 100) ^ i := by
  intro n
  induction n with
  | zero => intro year cv sip hs i hi; omega
  | succ k ih =>
    intro year cv sip hs i hi
    match i with
    | 0 =>
      simp only [cgAux, List.getD_cons_zero]
      show ((sipMonth r sip)^[12] (cv, 0)).2 = 12 * sip * (1 + su / 100) ^ 0
      rw [sipMonth_iterate_snd r sip hs 12 cv 0]
      norm_num
    | j + 1 =>
      have hfac : (0 : ℚ) < 1 + su / 100 := by positivity
      have hs' : 0 < sip * (1 + su / 100) := mul_pos hs hfac
      simp only [cgAux, List.getD_cons_succ, if_pos hsu]
      rw [ih _ _ _ hs' j (by omega)]
      ring

/-- C5: for every projector input with `monthly_sip > 0` and
`step_up_percentage > 0`, the SIP contribution reported for the record at
0-based index `i` (year `y = i + 1`) equals
`12 * monthly_sip * (1 + step_up_percentage / 100) ^ i`, i.e. the step-up is
applied once per year, after the year is emitted.  With monthly_sip 1000 and
step-up 20 % this gives 12000, 14400, 17280 exactly over `ℚ`. -/
theorem sip_step_up_law (principal annual_rate annual_investment : ℚ) (years : ℤ)
    (monthly_sip step_up_percentage : ℚ)
    (hms : 0 < monthly_sip) (hsu : 0 < step_up_percentage)
    (i : ℕ)
    (hi : i < (calculate_compound_growth principal annual_rate annual_investment years
      monthly_sip step_up_percentage).length) :
    ((calculate_compound_growth principal annual_rate annual_investment years
        monthly_sip step_up_percentage).getD i default).sip_contribution
      = 12 * monthly_sip * (1 + step_up_percentage / 100) ^ i := by
  rw [calculate_compound_growth_length] at hi
  exact cgAux_sip_law annual_rate annual_investment step_up_percentage hsu
    years.toNat 1 principal monthly_sip hms i hi

/-- Witness for C5 at the spec's concrete example: monthly_sip 1000, step-up
20 %, growth 12 %, no lump sum, principal 0, 3 years; year 2 (index 1) has SIP
contribution `12 * 1000 * (1 + 20/100) = 14400`. -/
theorem sip_step_up_law_witness :
    ((0 : ℚ) < 1000 ∧ (0 : ℚ) < 20 ∧
      1 < (calculate_compound_growth 0 12 0 3 1000 20).length) ∧
    ((calculate_compound_growth 0 12 0 3 1000 20).getD 1 default).sip_contribution = 14400 := by
  have hlen : (calculate_compound_growth 0 12 0 3 1000 20).length = 3 := by
    rw [calculate_compound_growth_length]; rfl
  refine ⟨⟨by norm_num, by norm_num, by rw [hlen]; norm_num⟩, ?_⟩
  have h := sip_step_up_law 0 12 0 3 1000 20 (by norm_num) (by norm_num) 1
    (by rw [hlen]; norm_num)
  rw [h]
  norm_num

/-- Linear interpolation of a sorted sample at fractional position `h`, as
`np.percentile`'s default method evaluates it: with `i = ⌊h⌋`, the value is
`s[i] + (h - i) * (s[i+1] - s[i])` (when `h` is the last valid position the
fraction is 0 and the out-of-range neighbour is irrelevant; we give `getD` the
lower value as default so that case degenerates correctly). -/
def interpAt (s : List ℚ) (h : ℚ) : ℚ :=
  let i := ⌊h⌋₊
  let lo := s.getD i 0
  let hi := s.getD (i + 1) lo
  lo + (h - (i : ℚ)) * (hi - lo)

/-- `np.percentile(l, q)` with the default linear interpolation: sort the
sample ascending and interpolate at position `q / 100 * (n - 1)`. -/
def percentile (q : ℚ) (l : List ℚ) : ℚ :=
  interpAt (l.mergeSort (fun a b => decide (a ≤ b))) (q / 100 * ((l.length : ℚ) - 1))

lemma mergeSort_sorted_le (l : List ℚ) :
    List.Sorted (· ≤ ·) (l.mergeSort (fun a b => decide (a ≤ b))) := by
  have h := @List.sorted_mergeSort ℚ (fun a b => decide (a ≤ b))
    (fun a b c hab hbc => by
      simp only [decide_eq_true_eq] at *
      exact le_trans hab hbc)
    (fun a b => by
      simp only [Bool.or_eq_true, decide_eq_true_eq]
      exact le_total a b) l
  exact h.imp (fun hab => by simpa using hab)

lemma getD_eq_getD_zero (s : List ℚ) (n : ℕ) (d : ℚ) (hn : n < s.length) :
    s.getD n d = s.getD n 0 := by
  rw [List.getD_eq_getElem?_getD, List.getD_eq_getElem?_getD,
    List.getElem?_eq_getElem hn]
  rfl

lemma sorted_getD_mono {s : List ℚ} (hs : List.Sorted (· ≤ ·) s) {a b : ℕ}
    (hab : a ≤ b) (hb : b < s.length) : s.getD a 0 ≤ s.getD b 0 := by
  have ha : a < s.length := lt_of_le_of_lt hab hb
  rw [List.getD_eq_getElem?_getD, List.getD_eq_getElem?_getD,
    List.getElem?_eq_getElem ha, List.getElem?_eq_getElem hb]
  exact List.Sorted.rel_get_of_le hs (a := ⟨a, ha⟩) (b := ⟨b, hb⟩) hab

/-- Monotonicity of linear interpolation over a sorted sample: a larger
position gives a value at least as large. -/
lemma interpAt_mono {s : List ℚ} (hs : List.Sorted (· ≤ ·) s) {h h' : ℚ}
    (h0 : 0 ≤ h) (hle : h ≤ h') (hub : h' ≤ (s.length : ℚ) - 1) :
    interpAt s h ≤ interpAt s h' := by
  have h0' : 0 ≤ h' := le_trans h0 hle
  have hii' : ⌊h⌋₊ ≤ ⌊h'⌋₊ := Nat.floor_mono hle
  have hilen : ⌊h'⌋₊ < s.length := by
    have h1 : (⌊h'⌋₊ : ℚ) ≤ h' := Nat.floor_le h0'
    have h2 : ((⌊h'⌋₊ + 1 : ℕ) : ℚ) ≤ (s.length : ℚ) := by push_cast; linarith
    have h3 : ⌊h'⌋₊ + 1 ≤ s.length := by exact_mod_cast h2
    omega
  have hflo : (⌊h⌋₊ : ℚ) ≤ h := Nat.floor_le h0
  have hflo' : (⌊h'⌋₊ : ℚ) ≤ h' := Nat.floor_le h0'
  have hfhi : h < (⌊h⌋₊ : ℚ) + 1 := Nat.lt_floor_add_one h
  have hloh : ⌊h⌋₊ < s.length := lt_of_le_of_lt hii' hilen
  show s.getD ⌊h⌋₊ 0 + (h - (⌊h⌋₊ : ℚ)) * (s.getD (⌊h⌋₊ + 1) (s.getD ⌊h⌋₊ 0) - s.getD ⌊h⌋₊ 0)
      ≤ s.getD ⌊h'⌋₊ 0 + (h' - (⌊h'⌋₊ : ℚ)) * (s.getD (⌊h'⌋₊ + 1) (s.getD ⌊h'⌋₊ 0) - s.getD ⌊h'⌋₊ 0)
  have key : ∀ n : ℕ, n < s.length → s.getD n 0 ≤ s.getD (n + 1) (s.getD n 0) := by
    intro n hn
    by_cases hn1 : n + 1 < s.length
    · rw [getD_eq_getD_zero s (n + 1) _ hn1]
      exact sorted_getD_mono hs (Nat.le_succ n) hn1
    · rw [List.getD_eq_default _ _ (by omega : s.length ≤ n + 1)]
  rcases lt_or_eq_of_le hii' with hlt | heq
  · -- the two positions fall in different segments of the sample
    have step1 : s.getD ⌊h⌋₊ 0 + (h - (⌊h⌋₊ : ℚ)) * (s.getD (⌊h⌋₊ + 1) (s.getD ⌊h⌋₊ 0) - s.getD ⌊h⌋₊ 0)
        ≤ s.getD (⌊h⌋₊ + 1) (s.getD ⌊h⌋₊ 0) := by
      have hd := key ⌊h⌋₊ hloh
      nlinarith [hd, hflo, hfhi]
    have hsucclen : ⌊h⌋₊ + 1 < s.length := by omega
    have step2 : s.getD (⌊h⌋₊ + 1) (s.getD ⌊h⌋₊ 0) ≤ s.getD ⌊h'⌋₊ 0 := by
      rw [getD_eq_getD_zero s (⌊h⌋₊ + 1) _ hsucclen]
      exact sorted_getD_mono hs (by omega) hilen
    have step3 : s.getD ⌊h'⌋₊ 0
        ≤ s.getD ⌊h'⌋₊ 0 + (h' - (⌊h'⌋₊ : ℚ)) * (s.getD (⌊h'⌋₊ + 1) (s.getD ⌊h'⌋₊ 0) - s.getD ⌊h'⌋₊ 0) := by
      have hd := key ⌊h'⌋₊ hilen
      nlinarith [hd, hflo']
    linarith
  · -- same segment: interpolate within it
    rw [heq] at hflo hfhi ⊢
    have hd := key ⌊h'⌋₊ hilen
    nlinarith [hd, hle]

/-- Monotonicity of the empirical percentile in the percentile argument, for
any non-empty sample. -/
lemma percentile_mono {l : List ℚ} (hne : l ≠ []) {q q' : ℚ}
    (h0 : 0 ≤ q) (hqq : q ≤ q') (h100 : q' ≤ 100) :
    percentile q l ≤ percentile q' l := by
  have hlen : 0 < l.length := List.length_pos.mpr hne
  have hlq : (1 : ℚ) ≤ (l.length : ℚ) := by exact_mod_cast hlen
  unfold percentile
  apply interpAt_mono (mergeSort_sorted_le l)
  · have : (0 : ℚ) ≤ q / 100 := by positivity
    nlinarith
  · have : (0 : ℚ) ≤ (l.length : ℚ) - 1 := by linarith
    have hq : q / 100 ≤ q' / 100 := by linarith
    nlinarith
  · rw [List.length_mergeSort]
    have h1 : q' / 100 ≤ 1 := by linarith
    have h2 : (0 : ℚ) ≤ (l.length : ℚ) - 1 := by linarith
    nlinarith

/-- The server's `MonteCarloResult` model.  The Python `final_values` dict has
the five fixed keys worst_case / pessimistic / most_likely / optimistic /
best_case; it is flattened into five fields here. -/
structure MonteCarloResult where
  percentile_10 : List ℚ
  percentile_25 : List ℚ
  percentile_50 : List ℚ
  percentile_75 : List ℚ
  percentile_90 : List ℚ
  years : List ℤ
  confidence_range : String
  worst_case : ℚ
  pessimistic : ℚ
  most_likely : ℚ
  optimistic : ℚ
  best_case : ℚ
deriving Inhabited, Repr

/-- The inner year loop of one Monte Carlo simulation: add the annual
investment, draw `annual_return_this_year = np.random.normal(annual_return,
volatility) = annual_return + volatility * z idx`, apply the return, record
the value.  Returns `yearly_values[1:]` (the initial value is excluded, as in
the code). -/
def simSteps (annual_return volatility annual_investment : ℚ) (z : ℕ → ℚ) :
    ℚ → ℕ → ℕ → List ℚ
  | _, _, 0 => []
  | portfolio_value, idx, n + 1 =>
    let v2 := (portfolio_value + annual_investment)
      * (1 + (annual_return + volatility * z idx) / 100)
    v2 :: simSteps annual_return volatility annual_investment z v2 (idx + 1) n

/-- All simulated paths (`results` in the code): one path per simulation, each
of length `yrs`.  The seeded generator's draws are consumed sequentially, so
simulation `s` uses draw indices `s * yrs .. s * yrs + yrs - 1`. -/
def mcPaths (initial_value annual_return volatility annual_investment : ℚ)
    (yrs simulations : ℕ) (z : ℕ → ℚ) : List (List ℚ) :=
  (List.range simulations).map (fun s =>
    simSteps annual_return volatility annual_investment z initial_value (s * yrs) yrs)

/-- Column `y` of the results matrix: the year-`y` value of every path
(`results_array[:, y]`). -/
def mcColumn (paths : List (List ℚ)) (y : ℕ) : List ℚ :=
  paths.map (fun path => path.getD y 0)

/-- `np.percentile(results_array, q, axis=0)`: the percentile of each year's
column. -/
def mcBand (paths : List (List ℚ)) (q : ℚ) (yrs : ℕ) : List ℚ :=
  (List.range yrs).map (fun y => percentile q (mcColumn paths y))

/-- Python `lst[-1]`: the last element, raising `IndexError` on an empty
list. -/
def lastElem (l : List ℚ) : Except String ℚ :=
  match l.getLast? with
  | some x => Except.ok x
  | none => Except.error "list index out of range"

/-- `run_monte_carlo_simulation` of the server.  `years` is the Python `int`
argument (`range(years)` is empty when it is ≤ 0); `z` is the stream of
standard normal draws produced by the seeded `np.random` generator.  The five
`final_values` entries are `band[-1]`, which raises `IndexError` when the
bands are empty. -/
def run_monte_carlo_simulation (initial_value annual_return volatility annual_investment : ℚ)
    (years : ℤ) (simulations : ℕ) (z : ℕ → ℚ) : Except String MonteCarloResult := do
  let yrs := years.toNat
  let paths := mcPaths initial_value annual_return volatility annual_investment yrs simulations z
  let w ← lastElem (mcBand paths 10 yrs)
  let pe ← lastElem (mcBand paths 25 yrs)
  let m ← lastElem (mcBand paths 50 yrs)
  let o ← lastElem (mcBand paths 75 yrs)
  let b ← lastElem (mcBand paths 90 yrs)
  Except.ok
    { percentile_10 := mcBand paths 10 yrs
      percentile_25 := mcBand paths 25 yrs
      percentile_50 := mcBand paths 50 yrs
      percentile_75 := mcBand paths 75 yrs
      percentile_90 := mcBand paths 90 yrs
      years := (List.range yrs).map (fun (y : ℕ) => (y : ℤ) + 1)
      confidence_range := "80% (10th to 90th percentile)"
      worst_case := w
      pessimistic := pe
      most_likely := m
      optimistic := o
      best_case := b }

lemma getD_range_map (f : ℕ → ℚ) (n i : ℕ) (hi : i < n) :
    ((List.range n).map f).getD i 0 = f i := by
  rw [List.getD_eq_getElem?_getD, List.getElem?_eq_getElem (by simpa using hi)]
  simp

lemma lastElem_range_map (f : ℕ → ℚ) (k : ℕ) :
    lastElem ((List.range (k + 1)).map f) = Except.ok (f k) := by
  unfold lastElem
  rw [List.range_succ, List.map_append]
  simp

lemma mcColumn_ne_nil {paths : List (List ℚ)} (hp : paths ≠ []) (y : ℕ) :
    mcColumn paths y ≠ [] := by
  unfold mcColumn
  simpa using hp

lemma mcPaths_ne_nil (iv ar vol ai : ℚ) (yrs : ℕ) {simulations : ℕ}
    (hs : 1 ≤ simulations) (z : ℕ → ℚ) :
    mcPaths iv ar vol ai yrs simulations z ≠ [] := by
  unfold mcPaths
  have : (List.range simulations).length = simulations := List.length_range simulations
  intro hcontra
  have := congrArg List.length hcontra
  simp at this
  omega

lemma lastElem_range_map_of_pos (f : ℕ → ℚ) (n : ℕ) (hn : 1 ≤ n) :
    lastElem ((List.range n).map f) = Except.ok (f (n - 1)) := by
  obtain ⟨k, rfl⟩ : ∃ k, n = k + 1 := ⟨n - 1, by omega⟩
  unfold lastElem
  rw [List.range_succ, List.map_append]
  simp

lemma mcBand_length (paths : List (List ℚ)) (q : ℚ) (yrs : ℕ) :
    (mcBand paths q yrs).length = yrs := by
  simp [mcBand]

lemma mcBand_getD {paths : List (List ℚ)} {yrs i : ℕ} (q : ℚ) (hi : i < yrs) :
    (mcBand paths q yrs).getD i 0 = percentile q (mcColumn paths i) := by
  unfold mcBand
  exact getD_range_map _ _ _ hi

/-- C6: for every Monte Carlo input with `years ≥ 1` and `simulations ≥ 1` and
every stream of normal draws, `run_monte_carlo_simulation` succeeds and its
result satisfies, at every year index,
`percentile_10 ≤ percentile_25 ≤ percentile_50 ≤ percentile_75 ≤ percentile_90`,
and the final values satisfy `worst_case ≤ best_case`. -/
theorem monte_carlo_percentile_bands_ordered
    (initial_value annual_return volatility annual_investment : ℚ)
    (years : ℤ) (simulations : ℕ) (z : ℕ → ℚ)
    (hy : 1 ≤ years) (hs : 1 ≤ simulations) :
    ∃ r, run_monte_carlo_simulation initial_value annual_return volatility annual_investment
        years simulations z = Except.ok r ∧
      (∀ i, i < r.percentile_10.length →
        r.percentile_10.getD i 0 ≤ r.percentile_25.getD i 0 ∧
        r.percentile_25.getD i 0 ≤ r.percentile_50.getD i 0 ∧
        r.percentile_50.getD i 0 ≤ r.percentile_75.getD i 0 ∧
        r.percentile_75.getD i 0 ≤ r.percentile_90.getD i 0) ∧
      r.worst_case ≤ r.best_case := by
  have hY1 : 1 ≤ years.toNat := by omega
  have hcolne : ∀ y, mcColumn (mcPaths initial_value annual_return volatility annual_investment
      years.toNat simulations z) y ≠ [] :=
    mcColumn_ne_nil (mcPaths_ne_nil _ _ _ _ _ hs z)
  have hl : ∀ f : ℕ → ℚ, lastElem ((List.range years.toNat).map f)
      = Except.ok (f (years.toNat - 1)) :=
    fun f => lastElem_range_map_of_pos f _ hY1
  have hrun : run_monte_carlo_simulation initial_value annual_return volatility
      annual_investment years simulations z = Except.ok
      { percentile_10 := mcBand (mcPaths initial_value annual_return volatility
          annual_investment years.toNat simulations z) 10 years.toNat
        percentile_25 := mcBand (mcPaths initial_value annual_return volatility
          annual_investment years.toNat simulations z) 25 years.toNat
        percentile_50 := mcBand (mcPaths initial_value annual_return volatility
          annual_investment years.toNat simulations z) 50 years.toNat
        percentile_75 := mcBand (mcPaths initial_value annual_return volatility
          annual_investment years.toNat simulations z) 75 years.toNat
        percentile_90 := mcBand (mcPaths initial_value annual_return volatility
          annual_investment years.toNat simulations z) 90 years.toNat
        years := (List.range years.toNat).map (fun (y : ℕ) => (y : ℤ) + 1)
        confidence_range := "80% (10th to 90th percentile)"
        worst_case := percentile 10 (mcColumn (mcPaths initial_value annual_return volatility
          annual_investment years.toNat simulations z) (years.toNat - 1))
        pessimistic := percentile 25 (mcColumn (mcPaths initial_value annual_return volatility
          annual_investment years.toNat simulations z) (years.toNat - 1))
        most_likely := percentile 50 (mcColumn (mcPaths initial_value annual_return volatility
          annual_investment years.toNat simulations z) (years.toNat - 1))
        optimistic := percentile 75 (mcColumn (mcPaths initial_value annual_return volatility
          annual_investment years.toNat simulations z) (years.toNat - 1))
        best_case := percentile 90 (mcColumn (mcPaths initial_value annual_return volatility
          annual_investment years.toNat simulations z) (years.toNat - 1)) } := by
    unfold run_monte_carlo_simulation
    simp only [mcBand, hl]
    rfl
  refine ⟨_, hrun, ?_, ?_⟩
  · intro i hi
    dsimp only at hi ⊢
    rw [mcBand_length] at hi
    rw [mcBand_getD 10 hi, mcBand_getD 25 hi, mcBand_getD 50 hi, mcBand_getD 75 hi,
      mcBand_getD 90 hi]
    exact ⟨percentile_mono (hcolne i) (by norm_num) (by norm_num) (by norm_num),
      percentile_mono (hcolne i) (by norm_num) (by norm_num) (by norm_num),
      percentile_mono (hcolne i) (by norm_num) (by norm_num) (by norm_num),
      percentile_mono (hcolne i) (by norm_num) (by norm_num) (by norm_num)⟩
  · exact percentile_mono (hcolne (years.toNat - 1)) (by norm_num) (by norm_num) (by norm_num)

/-- Witness for C6 at initial value 100, mean return 8 %, volatility 15 %,
annual investment 10, 1 year, 1 simulation, all draws 0. -/
theorem monte_carlo_percentile_bands_ordered_witness :
    ((1 : ℤ) ≤ 1 ∧ 1 ≤ 1) ∧
    (∃ r, run_monte_carlo_simulation 100 8 15 10 1 1 (fun _ => 0) = Except.ok r ∧
      (∀ i, i < r.percentile_10.length →
        r.percentile_10.getD i 0 ≤ r.percentile_25.getD i 0 ∧
        r.percentile_25.getD i 0 ≤ r.percentile_50.getD i 0 ∧
        r.percentile_50.getD i 0 ≤ r.percentile_75.getD i 0 ∧
        r.percentile_75.getD i 0 ≤ r.percentile_90.getD i 0) ∧
      r.worst_case ≤ r.best_case) :=
  ⟨⟨by norm_num, by norm_num⟩,
    monte_carlo_percentile_bands_ordered 100 8 15 10 1 1 (fun _ => 0)
      (by norm_num) (by norm_num)⟩

/-- C3 counterexample: at `years = 0` the projector does not reject the input
with an error — it silently returns an empty list — and the simulator fails
only when indexing `percentile_10[-1]` after the (empty) computation, not at an
input-validation boundary. -/
theorem nonpositive_years_counterexample :
    calculate_compound_growth 1000 12 500 0 100 10 = [] ∧
    run_monte_carlo_simulation 1000 12 15 500 0 1 (fun _ => 0)
      = Except.error "list index out of range" := by
  constructor
  · rfl
  · rfl

/-- C3 amended: for every input with non-positive `years`, neither function
validates the input: `calculate_compound_growth` silently returns an empty
list (an ordinary, non-error result with no year records), and
`run_monte_carlo_simulation` produces empty percentile bands and then raises
an index error when building `final_values` — an error arising after the
computation, not a boundary rejection. -/
theorem nonpositive_years_behavior
    (principal annual_rate annual_investment monthly_sip step_up_percentage : ℚ)
    (initial_value mc_return volatility mc_investment : ℚ)
    (years : ℤ) (simulations : ℕ) (z : ℕ → ℚ) (hy : years ≤ 0) :
    calculate_compound_growth principal annual_rate annual_investment years
      monthly_sip step_up_percentage = [] ∧
    run_monte_carlo_simulation initial_value mc_return volatility mc_investment
      years simulations z = Except.error "list index out of range" := by
  have h0 : years.toNat = 0 := by omega
  constructor
  · unfold calculate_compound_growth
    rw [h0]
    rfl
  · unfold run_monte_carlo_simulation
    rw [h0]
    rfl

/-- Witness for the amended C3 at `years = -3`. -/
theorem nonpositive_years_behavior_witness :
    ((-3 : ℤ) ≤ 0) ∧
    (calculate_compound_growth 5 7 20 (-3) 1 2 = [] ∧
      run_monte_carlo_simulation 5 7 20 1 (-3) 2 (fun _ => 1)
        = Except.error "list index out of range") :=
  ⟨by norm_num, nonpositive_years_behavior 5 7 20 1 2 5 7 20 1 (-3) 2 (fun _ => 1) (by norm_num)⟩

/-- One aggregated yearly record of `calculate_projections` (the dict the code
appends to `total_projections`). -/
structure AggRecord where
  year : ℤ
  total_value : ℚ
  investment_added : ℚ
  growth : ℚ
  sip_contribution : ℚ
  lumpsum_contribution : ℚ
deriving Inhabited, Repr

/-- `max(p.years for p in projections) if projections else 10`:  Python's `max`
over a non-empty sequence is a left fold of the binary max. -/
def horizon : List ProjectionInput → ℤ
  | [] => 10
  | p :: ps => ps.foldl (fun m q => max m q.years) p.years

/-- The projector applied to one `ProjectionInput`, as `calculate_projections`
invokes it. -/
def projOf (p : ProjectionInput) : List ProjectionResult :=
  calculate_compound_growth p.current_value p.annual_growth_rate p.annual_investment
    p.years p.monthly_sip_amount p.step_up_percentage

/-- The value accumulated into `yearly_totals[y]` for one field: each result
record with `result.year <= years` is added to the bucket of its year, so
bucket `y` receives exactly the records with `year = y` (and `year ≤ years`). -/
def yearTotal (allRes : List (List ProjectionResult)) (years y : ℤ)
    (f : ProjectionResult → ℚ) : ℚ :=
  (allRes.map (fun rs =>
    ((rs.filter (fun r => decide (r.year ≤ years) && decide (r.year = y))).map f).sum)).sum

/-- `calculate_projections` of the server: run the projector once per input and
sum the per-year fields across inputs, for years `1..max_years` (default 10
for an empty input list). -/
def calculate_projections (projections : List ProjectionInput) : List AggRecord :=
  let years := horizon projections
  let allRes := projections.map projOf
  (List.range years.toNat).map (fun (i : ℕ) =>
    { year := (i : ℤ) + 1
      total_value := yearTotal allRes years ((i : ℤ) + 1) (fun r => r.total_value)
      investment_added := yearTotal allRes years ((i : ℤ) + 1) (fun r => r.investment_added)
      growth := yearTotal allRes years ((i : ℤ) + 1) (fun r => r.growth)
      sip_contribution := yearTotal allRes years ((i : ℤ) + 1) (fun r => r.sip_contribution)
      lumpsum_contribution := yearTotal allRes years ((i : ℤ) + 1)
        (fun r => r.lumpsum_contribution) })

/-- C8: the aggregator on an empty input list returns exactly 10 yearly
records, years 1..10, with all monetary fields zero (the preserved
default-horizon policy). -/
theorem projections_empty_default :
    calculate_projections [] =
      [{ year := 1, total_value := 0, investment_added := 0, growth := 0,
         sip_contribution := 0, lumpsum_contribution := 0 },
       { year := 2, total_value := 0, investment_added := 0, growth := 0,
         sip_contribution := 0, lumpsum_contribution := 0 },
       { year := 3, total_value := 0, investment_added := 0, growth := 0,
         sip_contribution := 0, lumpsum_contribution := 0 },
       { year := 4, total_value := 0, investment_added := 0, growth := 0,
         sip_contribution := 0, lumpsum_contribution := 0 },
       { year := 5, total_value := 0, investment_added := 0, growth := 0,
         sip_contribution := 0, lumpsum_contribution := 0 },
       { year := 6, total_value := 0, investment_added := 0, growth := 0,
         sip_contribution := 0, lumpsum_contribution := 0 },
       { year := 7, total_value := 0, investment_added := 0, growth := 0,
         sip_contribution := 0, lumpsum_contribution := 0 },
       { year := 8, total_value := 0, investment_added := 0, growth := 0,
         sip_contribution := 0, lumpsum_contribution := 0 },
       { year := 9, total_value := 0, investment_added := 0, growth := 0,
         sip_contribution := 0, lumpsum_contribution := 0 },
       { year := 10, total_value := 0, investment_added := 0, growth := 0,
         sip_contribution := 0, lumpsum_contribution := 0 }] := by
  rfl

lemma foldl_max_init_le (l : List ProjectionInput) :
    ∀ a : ℤ, a ≤ l.foldl (fun m q => max m q.years) a := by
  induction l with
  | nil => intro a; exact le_refl a
  | cons q t ih =>
    intro a
    exact le_trans (le_max_left a q.years) (ih (max a q.years))

lemma foldl_max_mem_le (l : List ProjectionInput) :
    ∀ (a : ℤ) (q : ProjectionInput), q ∈ l → q.years ≤ l.foldl (fun m q => max m q.years) a := by
  induction l with
  | nil => intro a q hq; cases hq
  | cons p t ih =>
    intro a q hq
    rcases List.mem_cons.mp hq with rfl | hmem
    · exact le_trans (le_max_right a q.years) (foldl_max_init_le t (max a q.years))
    · exact ih (max a p.years) q hmem

lemma foldl_max_attained (l : List ProjectionInput) :
    ∀ a : ℤ, l.foldl (fun m q => max m q.years) a = a ∨
      ∃ q ∈ l, l.foldl (fun m q => max m q.years) a = q.years := by
  induction l with
  | nil => intro a; exact Or.inl rfl
  | cons p t ih =>
    intro a
    rcases ih (max a p.years) with h | ⟨q, hq, h⟩
    · rcases max_choice a p.years with hm | hm
      · exact Or.inl (by rw [List.foldl_cons, h, hm])
      · exact Or.inr ⟨p, List.mem_cons_self p t, by rw [List.foldl_cons, h, hm]⟩
    · exact Or.inr ⟨q, List.mem_cons_of_mem p hq, by rw [List.foldl_cons, h]⟩

lemma le_horizon {p : ProjectionInput} {ps : List ProjectionInput} (hp : p ∈ ps) :
    p.years ≤ horizon ps := by
  match ps with
  | [] => cases hp
  | q :: t =>
    rcases List.mem_cons.mp hp with rfl | hmem
    · exact foldl_max_init_le t p.years
    · exact foldl_max_mem_le t q.years p hmem

lemma horizon_attained (ps : List ProjectionInput) (hne : ps ≠ []) :
    ∃ p ∈ ps, horizon ps = p.years := by
  match ps with
  | [] => exact absurd rfl hne
  | q :: t =>
    rcases foldl_max_attained t q.years with h | ⟨p, hp, h⟩
    · exact ⟨q, List.mem_cons_self q t, h⟩
    · exact ⟨p, List.mem_cons_of_mem q hp, h⟩

/-- Filtering a `cgAux` run (whose records carry years `year, year+1, ...,
year+n-1`) down to the records of year `y` (with `y ≤ Y`) and summing a field
gives exactly that year's field when `y` falls in the run, and 0 otherwise. -/
lemma cgAux_filter_sum (r ai su : ℚ) (Y y : ℤ) (f : ProjectionResult → ℚ) (hyY : y ≤ Y) :
    ∀ (n : ℕ) (year : ℤ) (cv sip : ℚ),
      (((cgAux r ai su n year cv sip).filter
          (fun rec => decide (rec.year ≤ Y) && decide (rec.year = y))).map f).sum
        = if year ≤ y ∧ y < year + n then
            f ((cgAux r ai su n year cv sip).getD (y - year).toNat default) else 0 := by
  intro n
  induction n with
  | zero =>
    intro year cv sip
    rw [if_neg (by omega)]
    rfl
  | succ k ih =>
    intro year cv sip
    simp only [cgAux, List.filter_cons]
    by_cases hy : year = y
    · subst hy
      rw [if_pos (by simp [hyY])]
      simp only [List.map_cons, List.sum_cons]
      rw [ih (year + 1) _ _]
      rw [if_neg (show ¬(year + 1 ≤ year ∧ year < year + 1 + (k : ℤ)) from by omega)]
      rw [if_pos (show year ≤ year ∧ year < year + ((k + 1 : ℕ) : ℤ) from by
        constructor
        · exact le_refl year
        · omega)]
      have h0 : (year - year).toNat = 0 := by omega
      rw [h0, List.getD_cons_zero]
      exact add_zero _
    · rw [if_neg (by simp [hy])]
      rw [ih (year + 1) _ _]
      by_cases hcond : year + 1 ≤ y ∧ y < year + 1 + (k : ℤ)
      · rw [if_pos hcond]
        rw [if_pos (show year ≤ y ∧ y < year + ((k + 1 : ℕ) : ℤ) from by
          obtain ⟨h1, h2⟩ := hcond
          constructor <;> omega)]
        have htn : (y - year).toNat = (y - (year + 1)).toNat + 1 := by omega
        rw [htn, List.getD_cons_succ]
      · rw [if_neg hcond]
        rw [if_neg (show ¬(year ≤ y ∧ y < year + ((k + 1 : ℕ) : ℤ)) from by
          rcases not_and_or.mp hcond with h | h
          · intro hcontra; omega
          · intro hcontra; omega)]

lemma getD_range_map_gen {α : Type} [Inhabited α] (f : ℕ → α) (n i : ℕ) (hi : i < n) :
    ((List.range n).map f).getD i default = f i := by
  rw [List.getD_eq_getElem?_getD, List.getElem?_eq_getElem (by simpa using hi)]
  simp

/-- The claim's reading of the aggregate: for year `i + 1`, the sum over every
input whose own horizon covers that year of the corresponding field of its
individual projection. -/
def fieldSum (ps : List ProjectionInput) (i : ℕ) (f : ProjectionResult → ℚ) : ℚ :=
  (ps.map (fun p => if (i : ℤ) + 1 ≤ p.years then f ((projOf p).getD i default) else 0)).sum

lemma yearTotal_eq_fieldSum (ps : List ProjectionInput) (i : ℕ)
    (hiY : (i : ℤ) + 1 ≤ horizon ps) (f : ProjectionResult → ℚ) :
    yearTotal (ps.map projOf) (horizon ps) ((i : ℤ) + 1) f = fieldSum ps i f := by
  unfold yearTotal fieldSum
  rw [List.map_map]
  congr 1
  apply List.map_congr_left
  intro p _
  show (((projOf p).filter
      (fun r => decide (r.year ≤ horizon ps) && decide (r.year = (i : ℤ) + 1))).map f).sum
    = if (i : ℤ) + 1 ≤ p.years then f ((projOf p).getD i default) else 0
  unfold projOf calculate_compound_growth
  rw [cgAux_filter_sum _ _ _ _ _ f hiY]
  by_cases hc : (i : ℤ) + 1 ≤ p.years
  · rw [if_pos (show (1 : ℤ) ≤ (i : ℤ) + 1 ∧ (i : ℤ) + 1 < 1 + (p.years.toNat : ℤ) from by
      constructor <;> omega)]
    rw [if_pos hc]
    have harg : ((i : ℤ) + 1 - 1).toNat = i := by omega
    rw [harg]
  · rw [if_neg (show ¬((1 : ℤ) ≤ (i : ℤ) + 1 ∧ (i : ℤ) + 1 < 1 + (p.years.toNat : ℤ)) from by
      intro hcontra; omega)]
    rw [if_neg hc]

/-- C7: for every non-empty list of projection inputs with positive horizons,
`calculate_projections` returns exactly `max_years` records (`horizon` is the
maximum `years` across the inputs, as the two middle conjuncts state), ordered
by year `1..max_years`, and each year's five monetary fields equal the sum of
the corresponding fields of the individual `calculate_compound_growth`
projections of every input whose own horizon covers that year (`fieldSum`);
inputs with a shorter horizon stop contributing after their last year. -/
theorem projections_aggregate (ps : List ProjectionInput) (hne : ps ≠ [])
    (hpos : ∀ p ∈ ps, 1 ≤ p.years) :
    ((calculate_projections ps).length : ℤ) = horizon ps ∧
    (∀ p ∈ ps, p.years ≤ horizon ps) ∧
    (∃ p ∈ ps, horizon ps = p.years) ∧
    ∀ i, i < (calculate_projections ps).length →
      ((calculate_projections ps).getD i default).year = (i : ℤ) + 1 ∧
      ((calculate_projections ps).getD i default).total_value
        = fieldSum ps i (fun r => r.total_value) ∧
      ((calculate_projections ps).getD i default).investment_added
        = fieldSum ps i (fun r => r.investment_added) ∧
      ((calculate_projections ps).getD i default).growth
        = fieldSum ps i (fun r => r.growth) ∧
      ((calculate_projections ps).getD i default).sip_contribution
        = fieldSum ps i (fun r => r.sip_contribution) ∧
      ((calculate_projections ps).getD i default).lumpsum_contribution
        = fieldSum ps i (fun r => r.lumpsum_contribution) := by
  have hhor1 : 1 ≤ horizon ps := by
    obtain ⟨p, hp, hh⟩ := horizon_attained ps hne
    rw [hh]
    exact hpos p hp
  have hlen : (calculate_projections ps).length = (horizon ps).toNat := by
    unfold calculate_projections
    simp
  refine ⟨by rw [hlen]; omega, fun p hp => le_horizon hp, horizon_attained ps hne, ?_⟩
  intro i hi
  rw [hlen] at hi
  have hgetD : (calculate_projections ps).getD i default =
      { year := (i : ℤ) + 1
        total_value := yearTotal (ps.map projOf) (horizon ps) ((i : ℤ) + 1)
          (fun r => r.total_value)
        investment_added := yearTotal (ps.map projOf) (horizon ps) ((i : ℤ) + 1)
          (fun r => r.investment_added)
        growth := yearTotal (ps.map projOf) (horizon ps) ((i : ℤ) + 1) (fun r => r.growth)
        sip_contribution := yearTotal (ps.map projOf) (horizon ps) ((i : ℤ) + 1)
          (fun r => r.sip_contribution)
        lumpsum_contribution := yearTotal (ps.map projOf) (horizon ps) ((i : ℤ) + 1)
          (fun r => r.lumpsum_contribution) } := by
    unfold calculate_projections
    exact getD_range_map_gen _ _ _ hi
  rw [hgetD]
  have hiY : (i : ℤ) + 1 ≤ horizon ps := by omega
  exact ⟨rfl, yearTotal_eq_fieldSum ps i hiY _, yearTotal_eq_fieldSum ps i hiY _,
    yearTotal_eq_fieldSum ps i hiY _, yearTotal_eq_fieldSum ps i hiY _,
    yearTotal_eq_fieldSum ps i hiY _⟩

/-- Witness for C7: two inputs with horizons 2 and 1; the aggregate has
exactly `max(2, 1) = 2` records. -/
theorem projections_aggregate_witness :
    ((calculate_projections
      [{ current_value := 1000, annual_growth_rate := 12, annual_investment := 500, years := 2 },
       { current_value := 2000, annual_growth_rate := 10, annual_investment := 0,
         years := 1 }]).length : ℤ)
      = horizon
        [{ current_value := 1000, annual_growth_rate := 12, annual_investment := 500, years := 2 },
         { current_value := 2000, annual_growth_rate := 10, annual_investment := 0,
           years := 1 }] :=
  (projections_aggregate _ (by simp)
    (by intro p hp; fin_cases hp <;> norm_num)).1

/-- A `hold_for_ltcg` entry of `tax_saving_opportunities` or the general
`ltcg_planning` entry (the Python display `description` strings, which carry
f-string-formatted numbers, are not modelled). -/
inductive TaxOpportunity
  | hold_for_ltcg (asset_name : String) (days_remaining : ℤ) (potential_tax_saving : ℚ)
  | ltcg_planning (potential_saving : ℚ)
deriving DecidableEq, Repr

/-- One loss-harvesting suggestion (`description` display string not
modelled). -/
structure HarvestingSuggestion where
  asset_name : String
  loss_amount : ℚ
  tax_benefit : ℚ
deriving DecidableEq, Repr

/-- The `current_year_tax` dict (four fixed keys, flattened to fields). -/
structure CurrentYearTax where
  ltcg_gains : ℚ
  stcg_gains : ℚ
  ltcg_exemption_used : ℚ
  ltcg_exemption_remaining : ℚ
deriving Repr

/-- The server's `TaxOptimization` model. -/
structure TaxOptimization where
  current_year_tax : CurrentYearTax
  ltcg_liability : ℚ
  stcg_liability : ℚ
  tax_saving_opportunities : List TaxOpportunity
  harvesting_suggestions : List HarvestingSuggestion
  total_tax_liability : ℚ
  effective_tax_rate : ℚ
deriving Repr

/-- Indian tax constants of the code: LTCG 12.5 %, STCG 20 %, exemption
1.25 lakh. -/
def LTCG_RATE : ℚ := 125 / 1000

def STCG_RATE : ℚ := 20 / 100

def LTCG_EXEMPTION : ℚ := 125000

/-- `asset.asset_type in ["stocks", "mutual_funds", "cryptocurrency"]`. -/
def isEquity (a : Asset) : Prop :=
  a.asset_type = AssetType.stocks ∨ a.asset_type = AssetType.mutual_funds ∨
    a.asset_type = AssetType.cryptocurrency

instance (a : Asset) : Decidable (isEquity a) := by
  unfold isEquity
  infer_instance

/-- The LTCG holding threshold in days: 365 for equity-like types, 1095
(36 months) otherwise. -/
def ltcgThreshold (a : Asset) : ℤ :=
  if isEquity a then 365 else 1095

/-- One iteration of the asset loop of `calculate_tax_optimization`, updating
the state `(total_ltcg, total_stcg, tax_saving_opportunities,
harvesting_suggestions)`. -/
def taxStep (current_date : ℤ)
    (st : ℚ × ℚ × List TaxOpportunity × List HarvestingSuggestion) (a : Asset) :
    ℚ × ℚ × List TaxOpportunity × List HarvestingSuggestion :=
  let gain_loss := a.current_value - a.purchase_value
  if gain_loss > 0 then
    let holding_days := current_date - a.purchase_date
    let ltcg_threshold_days := ltcgThreshold a
    if holding_days > ltcg_threshold_days then
      (st.1 + gain_loss, st.2.1, st.2.2.1, st.2.2.2)
    else
      let days_to_ltcg := ltcg_threshold_days - holding_days
      if days_to_ltcg ≤ 90 ∧ days_to_ltcg > 0 then
        (st.1, st.2.1 + gain_loss,
          st.2.2.1 ++ [TaxOpportunity.hold_for_ltcg a.name days_to_ltcg
            (gain_loss * (STCG_RATE - LTCG_RATE))],
          st.2.2.2)
      else
        (st.1, st.2.1 + gain_loss, st.2.2.1, st.2.2.2)
  else
    (st.1, st.2.1, st.2.2.1,
      st.2.2.2 ++ [{ asset_name := a.name, loss_amount := abs gain_loss,
                     tax_benefit := abs gain_loss * (30 / 100) }])

/-- `calculate_tax_optimization` of the server.  `current_date` is
`datetime.now()` in days; the per-asset loop classifies each positive
unrealized gain as LTCG (`holding_days > threshold`) or STCG, collects
hold-for-LTCG and loss-harvesting suggestions, then computes the liability
under the exemption. -/
def calculate_tax_optimization (assets : List Asset) (current_date : ℤ) : TaxOptimization :=
  let st := assets.foldl (taxStep current_date) (0, 0, [], [])
  let total_ltcg := st.1
  let total_stcg := st.2.1
  let ltcg_taxable := max 0 (total_ltcg - LTCG_EXEMPTION)
  let ltcg_liability := ltcg_taxable * LTCG_RATE
  let stcg_liability := total_stcg * STCG_RATE
  let total_tax_liability := ltcg_liability + stcg_liability
  let total_gains := total_ltcg + total_stcg
  let effective_tax_rate :=
    if total_gains > 0 then total_tax_liability / total_gains * 100 else 0
  let opportunities :=
    if total_ltcg > LTCG_EXEMPTION * 2 then
      st.2.2.1 ++ [TaxOpportunity.ltcg_planning
        ((total_ltcg - LTCG_EXEMPTION) * LTCG_RATE * (30 / 100))]
    else st.2.2.1
  { current_year_tax :=
      { ltcg_gains := total_ltcg
        stcg_gains := total_stcg
        ltcg_exemption_used := min total_ltcg LTCG_EXEMPTION
        ltcg_exemption_remaining := max 0 (LTCG_EXEMPTION - total_ltcg) }
    ltcg_liability := ltcg_liability
    stcg_liability := stcg_liability
    tax_saving_opportunities := opportunities
    harvesting_suggestions := st.2.2.2
    total_tax_liability := total_tax_liability
    effective_tax_rate := effective_tax_rate }

/-- Gain of an asset. -/
def gainOf (a : Asset) : ℚ := a.current_value - a.purchase_value

/-- Long-term classification: positive gain held strictly longer than the
threshold. -/
def isLongTermGain (current_date : ℤ) (a : Asset) : Prop :=
  0 < gainOf a ∧ ltcgThreshold a < current_date - a.purchase_date

/-- Short-term classification: positive gain held for threshold days or
fewer. -/
def isShortTermGain (current_date : ℤ) (a : Asset) : Prop :=
  0 < gainOf a ∧ current_date - a.purchase_date ≤ ltcgThreshold a

instance (d : ℤ) (a : Asset) : Decidable (isLongTermGain d a) := by
  unfold isLongTermGain; infer_instance

instance (d : ℤ) (a : Asset) : Decidable (isShortTermGain d a) := by
  unfold isShortTermGain; infer_instance

lemma filter_cons_decide_pos {P : Asset → Prop} [DecidablePred P] {a : Asset}
    (l : List Asset) (h : P a) :
    List.filter (fun x => decide (P x)) (a :: l) = a :: List.filter (fun x => decide (P x)) l :=
  List.filter_cons_of_pos (by simpa using h)

lemma filter_cons_decide_neg {P : Asset → Prop} [DecidablePred P] {a : Asset}
    (l : List Asset) (h : ¬ P a) :
    List.filter (fun x => decide (P x)) (a :: l) = List.filter (fun x => decide (P x)) l :=
  List.filter_cons_of_neg (by simpa using h)

/-- Characterization of the asset loop of `calculate_tax_optimization`: the
accumulated LTCG total collects exactly the gains of long-term assets, the
STCG total exactly the gains of short-term assets, the hold-for-LTCG
opportunities exactly the short-term gains within 90 days of the threshold,
and the harvesting suggestions exactly the non-positive-gain assets. -/
lemma taxFold_spec (d : ℤ) :
    ∀ (assets : List Asset) (tl ts : ℚ) (opps : List TaxOpportunity)
      (harv : List HarvestingSuggestion),
      assets.foldl (taxStep d) (tl, ts, opps, harv) =
        (tl + ((assets.filter (fun a => decide (isLongTermGain d a))).map gainOf).sum,
         ts + ((assets.filter (fun a => decide (isShortTermGain d a))).map gainOf).sum,
         opps ++ (assets.filter (fun a => decide (isShortTermGain d a ∧
             ltcgThreshold a - (d - a.purchase_date) ≤ 90 ∧
             0 < ltcgThreshold a - (d - a.purchase_date)))).map
           (fun a => TaxOpportunity.hold_for_ltcg a.name
             (ltcgThreshold a - (d - a.purchase_date)) (gainOf a * (STCG_RATE - LTCG_RATE))),
         harv ++ (assets.filter (fun a => decide (¬ 0 < gainOf a))).map
           (fun a => { asset_name := a.name, loss_amount := abs (gainOf a),
                       tax_benefit := abs (gainOf a) * (30 / 100) })) := by
  intro assets
  induction assets with
  | nil => intro tl ts opps harv; simp
  | cons a rest ih =>
    intro tl ts opps harv
    rw [List.foldl_cons]
    by_cases hg : a.current_value - a.purchase_value > 0
    · have hgain : 0 < gainOf a := hg
      by_cases hl : d - a.purchase_date > ltcgThreshold a
      · -- long-term gain
        have hstep : taxStep d (tl, ts, opps, harv) a
            = (tl + (a.current_value - a.purchase_value), ts, opps, harv) := by
          simp [taxStep, hg, hl]
        rw [hstep, ih]
        have hL : isLongTermGain d a := ⟨hgain, hl⟩
        have hnS : ¬ isShortTermGain d a := fun h => absurd h.2 (not_le.mpr hl)
        have hnO : ¬ (isShortTermGain d a ∧ ltcgThreshold a - (d - a.purchase_date) ≤ 90 ∧
            0 < ltcgThreshold a - (d - a.purchase_date)) := fun h => hnS h.1
        have hnH : ¬ ¬ 0 < gainOf a := not_not_intro hgain
        simp only [Prod.mk.injEq]
        refine ⟨?_, ?_, ?_, ?_⟩
        · rw [filter_cons_decide_pos rest hL, List.map_cons, List.sum_cons]
          simp only [gainOf]
          ring
        · rw [filter_cons_decide_neg rest hnS]
        · rw [filter_cons_decide_neg rest hnO]
        · rw [filter_cons_decide_neg rest hnH]
      · -- short-term gain
        have hS : isShortTermGain d a := ⟨hgain, not_lt.mp hl⟩
        have hnL : ¬ isLongTermGain d a := fun h => absurd h.2 hl
        by_cases hc : ltcgThreshold a - (d - a.purchase_date) ≤ 90 ∧
            0 < ltcgThreshold a - (d - a.purchase_date)
        · have hstep : taxStep d (tl, ts, opps, harv) a
              = (tl, ts + (a.current_value - a.purchase_value),
                 opps ++ [TaxOpportunity.hold_for_ltcg a.name
                   (ltcgThreshold a - (d - a.purchase_date))
                   ((a.current_value - a.purchase_value) * (STCG_RATE - LTCG_RATE))],
                 harv) := by
            simp [taxStep, hg, hl, hc.1, hc.2]
          rw [hstep, ih]
          have hO : isShortTermGain d a ∧ ltcgThreshold a - (d - a.purchase_date) ≤ 90 ∧
              0 < ltcgThreshold a - (d - a.purchase_date) := ⟨hS, hc.1, hc.2⟩
          have hnH : ¬ ¬ 0 < gainOf a := not_not_intro hgain
          simp only [Prod.mk.injEq]
          refine ⟨?_, ?_, ?_, ?_⟩
          · rw [filter_cons_decide_neg rest hnL]
          · rw [filter_cons_decide_pos rest hS, List.map_cons, List.sum_cons]
            simp only [gainOf]
            ring
          · rw [filter_cons_decide_pos rest hO, List.map_cons, List.append_assoc]
            rfl
          · rw [filter_cons_decide_neg rest hnH]
        · have hstep : taxStep d (tl, ts, opps, harv) a
              = (tl, ts + (a.current_value - a.purchase_value), opps, harv) := by
            rcases not_and_or.mp hc with h | h
            · simp only [taxStep, if_pos hg, if_neg hl]
              rw [if_neg (fun hcontra => h hcontra.1)]
            · simp only [taxStep, if_pos hg, if_neg hl]
              rw [if_neg (fun hcontra => h hcontra.2)]
          rw [hstep, ih]
          have hnO : ¬ (isShortTermGain d a ∧ ltcgThreshold a - (d - a.purchase_date) ≤ 90 ∧
              0 < ltcgThreshold a - (d - a.purchase_date)) := fun h => hc h.2
          have hnH : ¬ ¬ 0 < gainOf a := not_not_intro hgain
          simp only [Prod.mk.injEq]
          refine ⟨?_, ?_, ?_, ?_⟩
          · rw [filter_cons_decide_neg rest hnL]
          · rw [filter_cons_decide_pos rest hS, List.map_cons, List.sum_cons]
            simp only [gainOf]
            ring
          · rw [filter_cons_decide_neg rest hnO]
          · rw [filter_cons_decide_neg rest hnH]
    · -- non-positive gain: harvesting only
      have hloss : ¬ 0 < gainOf a := hg
      have hnL : ¬ isLongTermGain d a := fun h => absurd h.1 hloss
      have hnS : ¬ isShortTermGain d a := fun h => absurd h.1 hloss
      have hnO : ¬ (isShortTermGain d a ∧ ltcgThreshold a - (d - a.purchase_date) ≤ 90 ∧
          0 < ltcgThreshold a - (d - a.purchase_date)) := fun h => hnS h.1
      have hstep : taxStep d (tl, ts, opps, harv) a
          = (tl, ts, opps,
             harv ++ [{ asset_name := a.name,
                        loss_amount := abs (a.current_value - a.purchase_value),
                        tax_benefit := abs (a.current_value - a.purchase_value) * (30 / 100) }]) := by
        simp [taxStep, hg]
      rw [hstep, ih]
      simp only [Prod.mk.injEq]
      refine ⟨?_, ?_, ?_, ?_⟩
      · rw [filter_cons_decide_neg rest hnL]
      · rw [filter_cons_decide_neg rest hnS]
      · rw [filter_cons_decide_neg rest hnO]
      · rw [filter_cons_decide_pos rest hloss, List.map_cons, List.append_assoc]
        rfl

/-- C4: for every asset list and evaluation date, `calculate_tax_optimization`
accumulates into total LTCG exactly the positive gains whose holding period
(`current_date − purchase_date`) strictly exceeds the asset's threshold
(`ltcgThreshold`: 365 days for stocks / mutual funds / cryptocurrency, 1095
otherwise — so an asset held `threshold + 1` days is long-term), into total
STCG exactly the positive gains held `threshold` days or fewer, and an asset
with a non-positive gain contributes to neither total — it yields exactly one
loss-harvesting suggestion. -/
theorem tax_ltcg_stcg_classification (assets : List Asset) (current_date : ℤ) :
    (calculate_tax_optimization assets current_date).current_year_tax.ltcg_gains
      = ((assets.filter (fun a => decide (isLongTermGain current_date a))).map gainOf).sum ∧
    (calculate_tax_optimization assets current_date).current_year_tax.stcg_gains
      = ((assets.filter (fun a => decide (isShortTermGain current_date a))).map gainOf).sum ∧
    (calculate_tax_optimization assets current_date).harvesting_suggestions
      = (assets.filter (fun a => decide (¬ 0 < gainOf a))).map
          (fun a => { asset_name := a.name, loss_amount := abs (gainOf a),
                      tax_benefit := abs (gainOf a) * (30 / 100) }) := by
  unfold calculate_tax_optimization
  rw [taxFold_spec]
  refine ⟨by simp, by simp, by simp⟩

/-- CPython dict assignment `d[k] = v` on an insertion-ordered association
list: overwrite in place when the key exists, append otherwise. -/
def dictInsert {β : Type} (k : String) (v : β) : List (String × β) → List (String × β)
  | [] => [(k, v)]
  | kv :: rest => if kv.1 = k then (k, v) :: rest else kv :: dictInsert k v rest

/-- Dict lookup `d[k]` (as an `Option`). -/
def lookupName {β : Type} (k : String) : List (String × β) → Option β
  | [] => none
  | kv :: rest => if kv.1 = k then some kv.2 else lookupName k rest

/-- `contribution_to_portfolio`: `gain_loss / total_investment * 100` when
`total_investment > 0`, else 0. -/
def contributionOf (dashboard : DashboardSummary) (a : Asset) : ℚ :=
  if dashboard.total_investment > 0 then
    (a.current_value - a.purchase_value) / dashboard.total_investment * 100
  else 0

/-- Per-asset return: `gain_loss / purchase_value * 100` when
`purchase_value > 0`, else 0. -/
def returnOf (a : Asset) : ℚ :=
  if a.purchase_value > 0 then
    (a.current_value - a.purchase_value) / a.purchase_value * 100
  else 0

/-- The dict built by the per-asset loop: `d[asset.name] = f(asset)` in list
order. -/
def buildDict (f : Asset → ℚ) (assets : List Asset) : List (String × ℚ) :=
  assets.foldl (fun acc a => dictInsert a.name (f a) acc) []

/-- `ASSET_TYPES_DICT` display names (every enum value has an entry, so the
`.get(t, t)` default never fires). -/
def displayName : AssetType → String
  | AssetType.stocks => "Stocks"
  | AssetType.mutual_funds => "Mutual Funds"
  | AssetType.cryptocurrency => "Cryptocurrency"
  | AssetType.real_estate => "Real Estate"
  | AssetType.fixed_deposits => "Fixed Deposits"
  | AssetType.gold => "Gold"
  | AssetType.others => "Others"

/-- One entry of `sector_analysis`. -/
structure SectorStats where
  allocation_percentage : ℚ
  average_return : ℚ
  total_value : ℚ
deriving Repr

/-- One `asset_data` record of the best/worst performer lists. -/
structure PerfRecord where
  name : String
  asset_type : AssetType
  return_percentage : ℚ
  contribution : ℚ
  current_value : ℚ
deriving Repr

/-- The server's `PerformanceAttribution` model. -/
structure PerformanceAttribution where
  asset_contributions : List (String × ℚ)
  sector_analysis : List (String × SectorStats)
  time_weighted_returns : List (String × ℚ)
  best_performers : List PerfRecord
  worst_performers : List PerfRecord
  correlation_matrix : List (String × List (String × ℚ))
deriving Repr

/-- `calculate_performance_attribution` of the server.  All of its divisions
are guarded in the source (`if denominator > 0 else 0`), so it is a total
function.  `rand i j` stands for the mocked off-diagonal correlation draw
`round(np.random.uniform(0.1, 0.8), 2)` for row `i`, column `j` (the draw and
its 2-decimal rounding are opaque randomness and are modelled by the
parameter). -/
def calculate_performance_attribution (assets : List Asset) (dashboard : DashboardSummary)
    (rand : ℕ → ℕ → ℚ) : PerformanceAttribution :=
  let asset_contributions := buildDict (contributionOf dashboard) assets
  let time_weighted_returns := buildDict returnOf assets
  let perfRecord : Asset → PerfRecord := fun a =>
    { name := a.name, asset_type := a.asset_type, return_percentage := returnOf a,
      contribution := contributionOf dashboard a, current_value := a.current_value }
  let best_performers :=
    ((assets.filter (fun a => decide (returnOf a > 0))).map perfRecord).mergeSort
      (fun x y => decide (y.return_percentage ≤ x.return_percentage))
  let worst_performers :=
    ((assets.filter (fun a => decide (¬ returnOf a > 0))).map perfRecord).mergeSort
      (fun x y => decide (x.return_percentage ≤ y.return_percentage))
  let sector_analysis := dashboard.asset_allocation.foldl (fun acc kv =>
    let allocation_percentage :=
      if dashboard.total_net_worth > 0 then kv.2 / dashboard.total_net_worth * 100 else 0
    let sector_assets := assets.filter (fun a => decide (a.asset_type = kv.1))
    let sector_return :=
      if sector_assets.isEmpty then 0
      else (sector_assets.map returnOf).sum / (sector_assets.length : ℚ)
    dictInsert (displayName kv.1)
      { allocation_percentage := allocation_percentage, average_return := sector_return,
        total_value := kv.2 } acc) []
  let asset_types := dashboard.asset_allocation.map Prod.fst
  let correlation_matrix := asset_types.enum.foldl (fun acc it =>
    dictInsert (displayName it.2)
      (asset_types.enum.foldl (fun row jt =>
        dictInsert (displayName jt.2)
          (if it.1 = jt.1 then (1 : ℚ) else rand it.1 jt.1) row) [])
      acc) []
  { asset_contributions := asset_contributions
    sector_analysis := sector_analysis
    time_weighted_returns := time_weighted_returns
    best_performers := best_performers.take 5
    worst_performers := worst_performers.take 5
    correlation_matrix := correlation_matrix }

lemma lookupName_dictInsert {β : Type} (q k : String) (v : β) :
    ∀ l : List (String × β),
      lookupName q (dictInsert k v l) = if k = q then some v else lookupName q l := by
  intro l
  induction l with
  | nil =>
    by_cases hkq : k = q
    · simp [dictInsert, lookupName, hkq]
    · simp [dictInsert, lookupName, hkq]
  | cons kv rest ih =>
    by_cases hk : kv.1 = k
    · rw [show dictInsert k v (kv :: rest) = (k, v) :: rest from by simp [dictInsert, hk]]
      by_cases hkq : k = q
      · simp [lookupName, hkq]
      · simp [lookupName, hkq, hk ▸ hkq]
    · rw [show dictInsert k v (kv :: rest) = kv :: dictInsert k v rest from by
        simp [dictInsert, hk]]
      by_cases hq : kv.1 = q
      · have hkq : ¬ k = q := fun h => hk (h ▸ hq)
        simp [lookupName, hq, hkq]
      · simp [lookupName, hq, ih]

lemma dictInsert_fresh {β : Type} (k : String) (v : β) :
    ∀ l : List (String × β), k ∉ l.map Prod.fst → dictInsert k v l = l ++ [(k, v)] := by
  intro l
  induction l with
  | nil => intro _; rfl
  | cons kv rest ih =>
    intro hmem
    have hne : kv.1 ≠ k := by
      intro h
      exact hmem (by simp [h])
    rw [show dictInsert k v (kv :: rest) = kv :: dictInsert k v rest from by
      simp [dictInsert, hne]]
    rw [ih (fun h => hmem (by simp [h]))]
    rfl

lemma keys_dictInsert {β : Type} (k : String) (v : β) :
    ∀ l : List (String × β),
      (dictInsert k v l).map Prod.fst =
        if k ∈ l.map Prod.fst then l.map Prod.fst else l.map Prod.fst ++ [k] := by
  intro l
  induction l with
  | nil => simp [dictInsert]
  | cons kv rest ih =>
    by_cases hk : kv.1 = k
    · rw [show dictInsert k v (kv :: rest) = (k, v) :: rest from by simp [dictInsert, hk]]
      rw [if_pos (by simp [hk.symm])]
      simp [hk]
    · rw [show dictInsert k v (kv :: rest) = kv :: dictInsert k v rest from by
        simp [dictInsert, hk]]
      by_cases hmem : k ∈ rest.map Prod.fst
      · rw [if_pos (by simp [hmem])]
        simp [ih, hmem]
      · rw [if_neg (show k ∉ (kv :: rest).map Prod.fst from by
          simp only [List.map_cons, List.mem_cons, not_or]
          exact ⟨fun h => hk h.symm, hmem⟩)]
        simp [ih, hmem]

lemma buildDict_concat (f : Asset → ℚ) (l : List Asset) (a : Asset) :
    buildDict f (l ++ [a]) = dictInsert a.name (f a) (buildDict f l) := by
  simp [buildDict, List.foldl_append]

lemma lookup_buildDict (f : Asset → ℚ) (q : String) :
    ∀ assets : List Asset,
      lookupName q (buildDict f assets)
        = ((assets.filter (fun a => decide (a.name = q))).getLast?).map f := by
  intro assets
  induction assets using List.reverseRecOn with
  | nil => rfl
  | append_singleton l a ih =>
    rw [buildDict_concat, lookupName_dictInsert, List.filter_append]
    by_cases hq : a.name = q
    · rw [if_pos hq]
      rw [show List.filter (fun a => decide (a.name = q)) [a] = [a] from by simp [hq]]
      simp
    · rw [if_neg hq]
      rw [show List.filter (fun a => decide (a.name = q)) [a] = [] from by simp [hq]]
      simp [ih]

lemma mem_keys_buildDict (f : Asset → ℚ) :
    ∀ (assets : List Asset) (q : String),
      q ∈ (buildDict f assets).map Prod.fst ↔ q ∈ assets.map (fun a => a.name) := by
  intro assets
  induction assets using List.reverseRecOn with
  | nil => intro q; simp [buildDict]
  | append_singleton l a ih =>
    intro q
    rw [buildDict_concat, keys_dictInsert]
    by_cases hmem : a.name ∈ (buildDict f l).map Prod.fst
    · rw [if_pos hmem]
      have hmem2 := (ih a.name).mp hmem
      rw [ih q]
      simp only [List.map_append, List.map_cons, List.map_nil, List.mem_append,
        List.mem_cons, List.not_mem_nil, or_false]
      constructor
      · intro h
        exact Or.inl h
      · intro h
        rcases h with h | h
        · exact h
        · exact h ▸ hmem2
    · rw [if_neg hmem]
      simp only [List.map_append, List.map_cons, List.map_nil, List.mem_append]
      rw [ih q]

lemma nodup_keys_buildDict (f : Asset → ℚ) :
    ∀ assets : List Asset, ((buildDict f assets).map Prod.fst).Nodup := by
  intro assets
  induction assets using List.reverseRecOn with
  | nil => simp [buildDict]
  | append_singleton l a ih =>
    rw [buildDict_concat, keys_dictInsert]
    by_cases hmem : a.name ∈ (buildDict f l).map Prod.fst
    · rw [if_pos hmem]
      exact ih
    · rw [if_neg hmem]
      simp [List.nodup_append, ih, hmem]

lemma length_buildDict (f : Asset → ℚ) (assets : List Asset) :
    (buildDict f assets).length = (assets.map (fun a => a.name)).dedup.length := by
  have hkeys : ((buildDict f assets).map Prod.fst).toFinset
      = (assets.map (fun a => a.name)).toFinset := by
    ext q
    simp only [List.mem_toFinset]
    exact mem_keys_buildDict f assets q
  have h1 : (buildDict f assets).length = ((buildDict f assets).map Prod.fst).length :=
    (List.length_map _ _).symm
  rw [h1, ← List.Nodup.dedup (nodup_keys_buildDict f assets)]
  rw [← List.card_toFinset, hkeys, List.card_toFinset]

/-- C10: `calculate_performance_attribution` keys its `asset_contributions`
and `time_weighted_returns` dicts by asset name.  For every name, the stored
value is the contribution (resp. return) of the LAST asset in the list with
that name — an earlier asset of the same name is overwritten — and the dict
has exactly one entry per distinct name, hence fewer entries than assets
whenever names repeat. -/
theorem attribution_keyed_by_name (assets : List Asset) (dashboard : DashboardSummary)
    (rand : ℕ → ℕ → ℚ) (q : String) :
    lookupName q (calculate_performance_attribution assets dashboard rand).asset_contributions
      = ((assets.filter (fun a => decide (a.name = q))).getLast?).map
          (contributionOf dashboard) ∧
    lookupName q (calculate_performance_attribution assets dashboard rand).time_weighted_returns
      = ((assets.filter (fun a => decide (a.name = q))).getLast?).map returnOf ∧
    (calculate_performance_attribution assets dashboard rand).asset_contributions.length
      = (assets.map (fun a => a.name)).dedup.length := by
  refine ⟨?_, ?_, ?_⟩
  · exact lookup_buildDict (contributionOf dashboard) q assets
  · exact lookup_buildDict returnOf q assets
  · exact length_buildDict (contributionOf dashboard) assets

/-- C9 counterexample: two assets that share the name "A" (each bought at 100,
now worth 200, total_investment 200).  The `asset_contributions` dict keeps
only the later entry, so its values sum to 50, not the claimed
`(Σ current − Σ purchase) / total_investment × 100 = 100`. -/
theorem attribution_sum_counterexample :
    ¬ ((((calculate_performance_attribution
        [{ name := "A", asset_type := AssetType.stocks, purchase_value := 100,
           current_value := 200, purchase_date := 0 },
         { name := "A", asset_type := AssetType.stocks, purchase_value := 100,
           current_value := 200, purchase_date := 0 }]
        { total_net_worth := 400, total_investment := 200, total_gain_loss := 200,
          gain_loss_percentage := 100, asset_allocation := [(AssetType.stocks, 400)] }
        (fun _ _ => 0)).asset_contributions).map Prod.snd).sum
      = ((([{ name := "A", asset_type := AssetType.stocks, purchase_value := 100,
              current_value := 200, purchase_date := (0 : ℤ) },
            { name := "A", asset_type := AssetType.stocks, purchase_value := 100,
              current_value := 200, purchase_date := 0 }] : List Asset).map
            (fun a => a.current_value)).sum
          - (([{ name := "A", asset_type := AssetType.stocks, purchase_value := 100,
                 current_value := 200, purchase_date := (0 : ℤ) },
               { name := "A", asset_type := AssetType.stocks, purchase_value := 100,
                 current_value := 200, purchase_date := 0 }] : List Asset).map
              (fun a => a.purchase_value)).sum) / 200 * 100) := by
  intro hcontra
  have h : (((calculate_performance_attribution
      [{ name := "A", asset_type := AssetType.stocks, purchase_value := 100,
         current_value := 200, purchase_date := 0 },
       { name := "A", asset_type := AssetType.stocks, purchase_value := 100,
         current_value := 200, purchase_date := 0 }]
      { total_net_worth := 400, total_investment := 200, total_gain_loss := 200,
        gain_loss_percentage := 100, asset_allocation := [(AssetType.stocks, 400)] }
      (fun _ _ => 0)).asset_contributions).map Prod.snd).sum = 50 := by
    simp [calculate_performance_attribution, buildDict, dictInsert, contributionOf]
    norm_num
  rw [h] at hcontra
  norm_num at hcontra

lemma foldl_dictInsert_fresh (f : Asset → ℚ) :
    ∀ (l : List Asset) (acc : List (String × ℚ)),
      (∀ a ∈ l, a.name ∉ acc.map Prod.fst) → (l.map (fun a => a.name)).Nodup →
      l.foldl (fun acc a => dictInsert a.name (f a) acc) acc
        = acc ++ l.map (fun a => (a.name, f a)) := by
  intro l
  induction l with
  | nil => intro acc _ _; simp
  | cons a rest ih =>
    intro acc hfresh hnd
    rw [List.foldl_cons]
    rw [dictInsert_fresh a.name (f a) acc (hfresh a (List.mem_cons_self a rest))]
    have hnd2 := hnd
    rw [List.map_cons] at hnd2
    have hpair := List.nodup_cons.mp hnd2
    rw [ih (acc ++ [(a.name, f a)])
      (by
        intro b hb
        simp only [List.map_append, List.mem_append, List.map_cons, List.map_nil,
          List.mem_cons, List.not_mem_nil, or_false, not_or]
        refine ⟨hfresh b (List.mem_cons_of_mem a hb), ?_⟩
        intro hcontra
        exact hpair.1 (hcontra ▸ List.mem_map_of_mem (fun a => a.name) hb))
      hpair.2]
    simp

/-- With pairwise-distinct asset names, the per-asset dict build never
overwrites: it is just the list of `(name, f asset)` pairs in order. -/
lemma buildDict_of_nodup (f : Asset → ℚ) (assets : List Asset)
    (hnd : (assets.map (fun a => a.name)).Nodup) :
    buildDict f assets = assets.map (fun a => (a.name, f a)) := by
  unfold buildDict
  rw [foldl_dictInsert_fresh f assets [] (by simp) hnd]
  simp

lemma sum_gain_div (c : ℚ) :
    ∀ l : List Asset,
      (l.map (fun a => (a.current_value - a.purchase_value) / c * 100)).sum
        = ((l.map (fun a => a.current_value)).sum
            - (l.map (fun a => a.purchase_value)).sum) / c * 100 := by
  intro l
  induction l with
  | nil => simp
  | cons a rest ih =>
    simp only [List.map_cons, List.sum_cons, ih]
    ring

/-- C9 amended: for every asset list whose names are pairwise distinct and
every dashboard with `total_investment > 0`, the values of the
`asset_contributions` dict sum to exactly
`(Σ current_values − Σ purchase_values) / total_investment × 100`.
(With duplicate names the dict keeps only the last entry per name and the
identity fails — see the counterexample.) -/
theorem attribution_sum_of_distinct_names (assets : List Asset)
    (dashboard : DashboardSummary) (rand : ℕ → ℕ → ℚ)
    (hnd : (assets.map (fun a => a.name)).Nodup)
    (hti : 0 < dashboard.total_investment) :
    (((calculate_performance_attribution assets dashboard rand).asset_contributions).map
        Prod.snd).sum
      = ((assets.map (fun a => a.current_value)).sum
          - (assets.map (fun a => a.purchase_value)).sum)
        / dashboard.total_investment * 100 := by
  show ((buildDict (contributionOf dashboard) assets).map Prod.snd).sum = _
  rw [buildDict_of_nodup _ _ hnd, List.map_map]
  have hcomp : (Prod.snd ∘ fun a : Asset => (a.name, contributionOf dashboard a))
      = fun a : Asset => contributionOf dashboard a := rfl
  rw [hcomp]
  rw [show assets.map (fun a => contributionOf dashboard a)
      = assets.map (fun a =>
          (a.current_value - a.purchase_value) / dashboard.total_investment * 100) from
    List.map_congr_left (fun a _ => if_pos hti)]
  exact sum_gain_div dashboard.total_investment assets

/-- Witness for the amended C9: two distinctly-named assets, total investment
200. -/
theorem attribution_sum_of_distinct_names_witness :
    ((([{ name := "A", asset_type := AssetType.stocks, purchase_value := 100,
          current_value := 150, purchase_date := 0 },
        { name := "B", asset_type := AssetType.gold, purchase_value := 100,
          current_value := 250, purchase_date := 0 }] : List Asset).map
        (fun a => a.name)).Nodup ∧ (0 : ℚ) < 200) ∧
    ((((calculate_performance_attribution
        [{ name := "A", asset_type := AssetType.stocks, purchase_value := 100,
           current_value := 150, purchase_date := 0 },
         { name := "B", asset_type := AssetType.gold, purchase_value := 100,
           current_value := 250, purchase_date := 0 }]
        { total_net_worth := 400, total_investment := 200, total_gain_loss := 200,
          gain_loss_percentage := 100, asset_allocation := [(AssetType.stocks, 150)] }
        (fun _ _ => 0)).asset_contributions).map Prod.snd).sum
      = ((([{ name := "A", asset_type := AssetType.stocks, purchase_value := 100,
              current_value := 150, purchase_date := (0 : ℤ) },
            { name := "B", asset_type := AssetType.gold, purchase_value := 100,
              current_value := 250, purchase_date := 0 }] : List Asset).map
            (fun a => a.current_value)).sum
          - (([{ name := "A", asset_type := AssetType.stocks, purchase_value := 100,
                 current_value := 150, purchase_date := (0 : ℤ) },
               { name := "B", asset_type := AssetType.gold, purchase_value := 100,
                 current_value := 250, purchase_date := 0 }] : List Asset).map
              (fun a => a.purchase_value)).sum) / 200 * 100) := by
  constructor
  · exact ⟨by simp, by norm_num⟩
  · exact attribution_sum_of_distinct_names _ _ _ (by simp) (by norm_num)

/-- Python float division, which raises `ZeroDivisionError` on a zero
denominator. -/
def qdiv (a b : ℚ) : Except String ℚ :=
  if b = 0 then Except.error "float division by zero" else Except.ok (a / b)

/-- Python `int(x)` on a float: truncation toward zero. -/
def pyInt (q : ℚ) : ℤ := q.num.tdiv (q.den : ℤ)

/-- The server's `FinancialHealthScore` model. -/
structure FinancialHealthScore where
  overall_score : ℤ
  category_scores : List (String × ℤ)
  recommendations : List String
  strengths : List String
  areas_for_improvement : List String
deriving Repr

/-- `calculate_financial_health_score` of the server.  Unlike the other two
analyzers, its three ratio computations (`max_allocation`,
`risky_percentage`, `safe_percentage`) divide by `total_net_worth` without a
guard, so the function is embedded in `Except`: it fails exactly where Python
raises `ZeroDivisionError`.  The f-string `"Consistent SIP investments in
{n} assets"` is modelled without the interpolated count. -/
def calculate_financial_health_score (assets : List Asset)
    (dashboard : DashboardSummary) : Except String FinancialHealthScore := do
  -- 1. Portfolio Diversification (0-200 points)
  let (div_score, str1, rec1, areas1) ←
    match dashboard.asset_allocation with
    | [] => Except.ok ((0 : ℤ), ([] : List String), ([] : List String), ([] : List String))
    | kv :: rest => do
        let asset_count : ℤ := (kv :: rest).length
        let frac ← qdiv ((rest.map Prod.snd).foldl max kv.2) dashboard.total_net_worth
        let max_allocation := frac * 100
        let diversification_score :=
          min 200 ((asset_count : ℚ) * 30 + (100 - max_allocation) * 2)
        if max_allocation > 70 then
          Except.ok (pyInt diversification_score, ([] : List String),
            ["Consider diversifying across more asset classes"],
            ["Portfolio is heavily concentrated in one asset class"])
        else
          Except.ok (pyInt diversification_score,
            ["Well-diversified portfolio across multiple asset classes"],
            ([] : List String), ([] : List String))
  -- 2. Investment Consistency (0-200 points) - SIP analysis
  let sip_count : ℤ := (assets.filter (fun a => a.is_sip_active)).length
  let sip_score : ℤ := min 200 (sip_count * 50 + (if 0 < sip_count then 1 else 0) * 50)
  let (str2, rec2, areas2) :=
    if 0 < sip_count then
      (["Consistent SIP investments"], ([] : List String), ([] : List String))
    else
      (([] : List String), ["Consider starting SIPs for regular investing"],
        ["No systematic investment plans (SIPs) active"])
  -- 3. Growth Performance (0-200 points)
  let (growth_score, str3, rec3, areas3) :=
    if dashboard.gain_loss_percentage ≥ 15 then
      ((200 : ℤ), ["Excellent portfolio performance"], ([] : List String),
        ([] : List String))
    else if dashboard.gain_loss_percentage ≥ 10 then
      (150, ["Good portfolio performance"], [], [])
    else if dashboard.gain_loss_percentage ≥ 5 then (100, [], [], [])
    else if dashboard.gain_loss_percentage ≥ 0 then (50, [], [], [])
    else
      (0, [], ["Review and rebalance portfolio allocation"],
        ["Portfolio showing negative returns"])
  -- 4. Net Worth Growth (0-200 points)
  let (net_worth_score, str4, rec4) :=
    if dashboard.total_net_worth ≥ 10000000 then
      ((200 : ℤ), ["Achieved significant wealth accumulation"], ([] : List String))
    else if dashboard.total_net_worth ≥ 5000000 then
      (150, ["Strong wealth accumulation progress"], [])
    else if dashboard.total_net_worth ≥ 1000000 then (100, [], [])
    else if dashboard.total_net_worth ≥ 500000 then (75, [], [])
    else if dashboard.total_net_worth ≥ 100000 then (50, [], [])
    else (25, [], ["Focus on increasing monthly investments"])
  -- 5. Risk Management (0-200 points) - asset allocation analysis
  let (risk_score, str5, rec5) ←
    match dashboard.asset_allocation with
    | [] => Except.ok ((100 : ℤ), ([] : List String), ([] : List String))
    | _ => do
        let risky_allocation := ((dashboard.asset_allocation.filter (fun kv =>
          decide (kv.1 = AssetType.cryptocurrency ∨ kv.1 = AssetType.stocks))).map
            Prod.snd).sum
        let rfrac ← qdiv risky_allocation dashboard.total_net_worth
        let risky_percentage := rfrac * 100
        let (base, strb, recb) :=
          if risky_percentage > 80 then
            ((50 : ℤ), ([] : List String),
              ["Consider reducing high-risk asset concentration"])
          else if risky_percentage > 60 then (100, [], [])
          else (150, ["Balanced risk allocation"], [])
        let safe_allocation := ((dashboard.asset_allocation.filter (fun kv =>
          decide (kv.1 = AssetType.fixed_deposits ∨ kv.1 = AssetType.gold))).map
            Prod.snd).sum
        let sfrac ← qdiv safe_allocation dashboard.total_net_worth
        let safe_percentage := sfrac * 100
        if safe_percentage ≥ 20 then
          Except.ok (base + 50, strb ++ ["Good defensive asset allocation"], recb)
        else
          Except.ok (base, strb, recb)
  let overall_score := div_score + sip_score + growth_score + net_worth_score
    + min 200 risk_score
  let (strO, recO) :=
    if overall_score ≥ 800 then
      (["Excellent overall financial health"], ([] : List String))
    else if overall_score ≥ 600 then
      ([], ["Consider minor optimizations to reach excellent tier"])
    else if overall_score ≥ 400 then
      ([], ["Focus on diversification and consistent investing"])
    else ([], ["Significant improvements needed in financial planning"])
  Except.ok
    { overall_score := overall_score
      category_scores :=
        [("diversification", div_score), ("consistency", sip_score),
         ("performance", growth_score), ("wealth_accumulation", net_worth_score),
         ("risk_management", min 200 risk_score)]
      recommendations := rec1 ++ rec2 ++ rec3 ++ rec4 ++ rec5 ++ recO
      strengths := str1 ++ str2 ++ str3 ++ str4 ++ str5 ++ strO
      areas_for_improvement := areas1 ++ areas2 ++ areas3 }

lemma mem_dictInsert {β : Type} (k : String) (v : β) :
    ∀ (l : List (String × β)) (kv : String × β),
      kv ∈ dictInsert k v l → kv = (k, v) ∨ kv ∈ l := by
  intro l
  induction l with
  | nil =>
    intro kv hkv
    simp [dictInsert] at hkv
    exact Or.inl (by simp [hkv])
  | cons kv0 rest ih =>
    intro kv hkv
    by_cases hk : kv0.1 = k
    · rw [show dictInsert k v (kv0 :: rest) = (k, v) :: rest from by
        simp [dictInsert, hk]] at hkv
      rcases List.mem_cons.mp hkv with h | h
      · exact Or.inl h
      · exact Or.inr (List.mem_cons_of_mem kv0 h)
    · rw [show dictInsert k v (kv0 :: rest) = kv0 :: dictInsert k v rest from by
        simp [dictInsert, hk]] at hkv
      rcases List.mem_cons.mp hkv with h | h
      · exact Or.inr (h ▸ List.mem_cons_self kv0 rest)
      · rcases ih kv h with h2 | h2
        · exact Or.inl h2
        · exact Or.inr (List.mem_cons_of_mem kv0 h2)

/-- Every value stored by a fold of `dictInsert` satisfies a property that
holds of every inserted value and of the initial accumulator's values. -/
lemma foldl_dictInsert_values {α β : Type} (P : β → Prop) (key : α → String) (val : α → β)
    (hval : ∀ x, P (val x)) :
    ∀ (l : List α) (acc : List (String × β)), (∀ kv ∈ acc, P kv.2) →
      ∀ kv ∈ l.foldl (fun acc x => dictInsert (key x) (val x) acc) acc, P kv.2 := by
  intro l
  induction l with
  | nil => intro acc hacc kv hkv; exact hacc kv hkv
  | cons x rest ih =>
    intro acc hacc kv hkv
    rw [List.foldl_cons] at hkv
    refine ih (dictInsert (key x) (val x) acc) ?_ kv hkv
    intro kv2 hkv2
    rcases mem_dictInsert (key x) (val x) acc kv2 hkv2 with h | h
    · rw [h]
      exact hval x
    · exact hacc kv2 h

/-- C2 counterexample: with a non-empty `asset_allocation` whose values sum to
0 (one all-zero stocks bucket) and `total_net_worth = 0`,
`calculate_financial_health_score` hits the unguarded division
`max(allocation.values()) / total_net_worth` and raises a division-by-zero
error instead of substituting 0. -/
theorem health_score_division_by_zero :
    calculate_financial_health_score []
      { total_net_worth := 0, total_investment := 0, total_gain_loss := 0,
        gain_loss_percentage := 0, asset_allocation := [(AssetType.stocks, 0)] }
      = Except.error "float division by zero" := by
  rfl

/-- C2 amended: with a zero total investment and zero net worth, the guarded
ratio computations do substitute 0 — every `asset_contributions` value and
every sector `allocation_percentage` of `calculate_performance_attribution`
is 0, and `calculate_tax_optimization`'s `effective_tax_rate` is 0 whenever
total gains are 0 — but `calculate_financial_health_score` has no such guard:
it raises a division-by-zero error whenever `asset_allocation` is non-empty
(and returns a result when the allocation is empty, since no division is
reached). -/
theorem ratio_zero_guards_amended (assets : List Asset) (dashboard : DashboardSummary)
    (rand : ℕ → ℕ → ℚ) (current_date : ℤ)
    (hti : dashboard.total_investment = 0) (htn : dashboard.total_net_worth = 0) :
    (∀ kv ∈ (calculate_performance_attribution assets dashboard rand).asset_contributions,
      kv.2 = 0) ∧
    (∀ kv ∈ (calculate_performance_attribution assets dashboard rand).sector_analysis,
      kv.2.allocation_percentage = 0) ∧
    ((calculate_tax_optimization assets current_date).current_year_tax.ltcg_gains
        + (calculate_tax_optimization assets current_date).current_year_tax.stcg_gains = 0 →
      (calculate_tax_optimization assets current_date).effective_tax_rate = 0) ∧
    (dashboard.asset_allocation ≠ [] →
      calculate_financial_health_score assets dashboard
        = Except.error "float division by zero") ∧
    (dashboard.asset_allocation = [] →
      ∃ r, calculate_financial_health_score assets dashboard = Except.ok r) := by
  refine ⟨?_, ?_, ?_, ?_, ?_⟩
  · intro kv hkv
    refine foldl_dictInsert_values (fun v => v = 0) (fun a : Asset => a.name)
      (contributionOf dashboard) ?_ assets [] (by intro kv2 hkv2; cases hkv2) kv hkv
    intro a
    unfold contributionOf
    rw [if_neg (by rw [hti]; exact lt_irrefl 0)]
  · intro kv hkv
    refine foldl_dictInsert_values (fun v : SectorStats => v.allocation_percentage = 0)
      (fun kv2 : AssetType × ℚ => displayName kv2.1)
      (fun kv2 : AssetType × ℚ =>
        { allocation_percentage :=
            if dashboard.total_net_worth > 0 then kv2.2 / dashboard.total_net_worth * 100
            else 0
          average_return :=
            if (assets.filter (fun a => decide (a.asset_type = kv2.1))).isEmpty then 0
            else ((assets.filter (fun a => decide (a.asset_type = kv2.1))).map returnOf).sum
              / (((assets.filter (fun a => decide (a.asset_type = kv2.1))).length : ℚ))
          total_value := kv2.2 })
      ?_ dashboard.asset_allocation [] (by intro kv2 hkv2; cases hkv2) kv hkv
    intro x
    show (if dashboard.total_net_worth > 0 then x.2 / dashboard.total_net_worth * 100
      else 0) = 0
    rw [if_neg (by rw [htn]; exact lt_irrefl 0)]
  · intro h
    unfold calculate_tax_optimization at h ⊢
    rw [taxFold_spec] at h ⊢
    dsimp only at h ⊢
    rw [if_neg (by rw [h]; exact lt_irrefl 0)]
  · intro hne
    obtain ⟨kv, rest, halloc⟩ : ∃ kv rest, dashboard.asset_allocation = kv :: rest := by
      cases h : dashboard.asset_allocation with
      | nil => exact absurd h hne
      | cons kv rest => exact ⟨kv, rest, rfl⟩
    unfold calculate_financial_health_score
    rw [halloc, htn]
    rfl
  · intro hempty
    unfold calculate_financial_health_score
    rw [hempty]
    exact ⟨_, rfl⟩

/-- Witness for the amended C2 at an empty asset list and a dashboard with
zero totals and a single all-zero stocks allocation bucket. -/
theorem ratio_zero_guards_amended_witness :
    (∀ kv ∈ (calculate_performance_attribution []
        { total_net_worth := 0, total_investment := 0, total_gain_loss := 0,
          gain_loss_percentage := 0, asset_allocation := [(AssetType.stocks, 0)] }
        (fun _ _ => 0)).asset_contributions, kv.2 = 0) ∧
    calculate_financial_health_score []
      { total_net_worth := 0, total_investment := 0, total_gain_loss := 0,
        gain_loss_percentage := 0, asset_allocation := [(AssetType.stocks, 0)] }
      = Except.error "float division by zero" := by
  have h := ratio_zero_guards_amended []
    { total_net_worth := 0, total_investment := 0, total_gain_loss := 0,
      gain_loss_percentage := 0, asset_allocation := [(AssetType.stocks, 0)] }
    (fun _ _ => 0) 0 rfl rfl
  exact ⟨h.1, h.2.2.2.1 (by simp)⟩
